import Mathlib

set_option maxRecDepth 100000

/-!
Shallow embedding of the stack virtual machine in `src/svm/stack_vm.cpp`.

The C++ program is a bytecode interpreter: an `ExecutionEngine` owns a
program (vector of `Instruction`), a bounded operand `Stack` (capacity
1024), a sparse `Memory` (`unordered_map<int,int>` with addresses bounded
by 65535), a call stack, a program counter `pc`, and a `running` flag.
`run()` loops `while (running && pc < program.size())`, dispatching
`program[pc]` and then incrementing `pc`.  Every throwing operation raises
`std::runtime_error` with a message string; `execute` catches it at the
dispatch boundary, logs `(pc, message)` to `cerr`, and clears `running`.

Modelling choices:
  * machine `int` values are `Int` (the claims under study do not involve
    overflow); C++ `/` and `%` are `Int.tdiv` / `Int.tmod` (truncation
    toward zero, matching C++ semantics);
  * the operand stack is a `List Int` whose head is the top of the stack
    (the back of the C++ vector); fallible stack/memory operations return
    `Except String _` carrying the exact C++ exception message;
  * the sparse memory map is a function `Int → Option Int`; `none` models
    absence from the `unordered_map` (reads of unset addresses yield 0);
  * `cout` output of PRINT is accumulated in an `output : List Int` field;
    the `cerr` diagnostics of the catch handler are accumulated as
    `(pc, message)` pairs in a `diagnostics` field;
  * mid-instruction mutations are committed even when a later part of the
    same instruction throws (as in the C++ code, where `stack.pop()`
    mutates the real stack before a subsequent check throws); `dispatch`
    therefore returns the partially-mutated state together with the
    optional error;
  * `operands[0]` on a `std::vector` with no bounds check is modelled by
    `List.getD _ 0 0`; the C++ behaviour is undefined for a short operand
    list, so theorems that depend on operand access are stated for
    instructions carrying at least the declared operand count;
  * the `while` loop of `run()` is modelled with explicit fuel
    `program.length - pc`: each iteration increments `pc` by exactly one
    (no implemented opcode writes `pc`), so this fuel is exactly the
    number of remaining iterations; `runLoop_stops` below proves that the
    fueled loop reaches a state in which the C++ loop condition is false,
    so the two agree.
-/

namespace SVM

inductive OpCode where
  | PUSH | POP | ADD | SUB | MUL | DIV | MOD
  | LOAD | STORE | JMP | JZ | JNZ | CALL | RET
  | PRINT | HALT
  | DUP
  | SWAP
  | CMP
deriving DecidableEq, Repr

structure Instruction where
  opcode : OpCode
  operands : List Int
deriving DecidableEq, Repr

/-- `Stack::MAX_SIZE` — stack size limit. -/
def MAX_SIZE : Nat := 1024

/-- `Stack::push`: throws "Stack Overflow" when `stack.size() >= MAX_SIZE`,
otherwise appends (`push_back`; list head = vector back = top). -/
def Stack.push (s : List Int) (value : Int) : Except String (List Int) :=
  if MAX_SIZE ≤ s.length then Except.error "Stack Overflow"
  else Except.ok (value :: s)

/-- `Stack::pop`: throws "Stack Underflow" when empty, otherwise removes and
returns the top value. -/
def Stack.pop (s : List Int) : Except String (Int × List Int) :=
  match s with
  | [] => Except.error "Stack Underflow"
  | v :: rest => Except.ok (v, rest)

/-- `Stack::peek`: throws "Stack is empty" when empty, otherwise returns the
top value without removing it. -/
def Stack.peek (s : List Int) : Except String Int :=
  match s with
  | [] => Except.error "Stack is empty"
  | v :: _ => Except.ok v

/-- `Stack::dup`: throws "Stack Underflow" when empty, otherwise
`push(peek())` (subject to the overflow check of `push`). -/
def Stack.dup (s : List Int) : Except String (List Int) :=
  match s with
  | [] => Except.error "Stack Underflow"
  | v :: rest => Stack.push (v :: rest) v

/-- `Stack::swap`: throws "Stack Underflow" when fewer than two elements,
otherwise `a = pop(); b = pop(); push(a); push(b)` — the top two values are
exchanged.  The two pushes cannot overflow because the size just decreased
by two, so the result is the exchanged list. -/
def Stack.swap (s : List Int) : Except String (List Int) :=
  if s.length < 2 then Except.error "Stack Underflow"
  else
    match s with
    | a :: b :: rest => Except.ok (b :: a :: rest)
    | _ => Except.error "Stack Underflow"

/-- `Memory::MAX_ADDRESS` — memory address limit. -/
def MAX_ADDRESS : Int := 65535

/-- `Memory::store`: throws "Memory address out of bounds" when
`address < 0 || address > MAX_ADDRESS`, otherwise `memory[address] = value`
(insert or overwrite). -/
def Memory.store (m : Int → Option Int) (address value : Int) :
    Except String (Int → Option Int) :=
  if address < 0 ∨ MAX_ADDRESS < address then
    Except.error "Memory address out of bounds"
  else Except.ok (fun x => if x = address then some value else m x)

/-- `Memory::load`: throws "Memory address out of bounds" under the same
condition, otherwise returns the stored value, or 0 when the address was
never written (`memory.find(address) == memory.end()`). -/
def Memory.load (m : Int → Option Int) (address : Int) : Except String Int :=
  if address < 0 ∨ MAX_ADDRESS < address then
    Except.error "Memory address out of bounds"
  else
    match m address with
    | none => Except.ok 0
    | some v => Except.ok v

/-- The mutable state of `ExecutionEngine`: the loaded program, operand
stack, memory, call stack, program counter, running flag, plus the
observable `cout` output of PRINT and the `cerr` diagnostics of the catch
handler (recorded as `(pc, message)` pairs). -/
structure EngineState where
  program : List Instruction
  stack : List Int
  memory : Int → Option Int
  call_stack : List Int
  pc : Nat
  running : Bool
  output : List Int
  diagnostics : List (Nat × String)

/-- A freshly constructed `ExecutionEngine`: empty program, empty stacks,
empty memory map, `pc = 0`, `running = true`, nothing printed. -/
def initState : EngineState :=
  { program := []
    stack := []
    memory := fun _ => none
    call_stack := []
    pc := 0
    running := true
    output := []
    diagnostics := [] }

/-- The declared operand count of each opcode: PUSH/LOAD/STORE carry one
literal operand (the commented-out JMP/JZ/JNZ/CALL would too); the rest
carry none. -/
def operandCount : OpCode → Nat
  | OpCode.PUSH => 1
  | OpCode.LOAD => 1
  | OpCode.STORE => 1
  | OpCode.JMP => 1
  | OpCode.JZ => 1
  | OpCode.JNZ => 1
  | OpCode.CALL => 1
  | _ => 0

/-- An instruction carries at least the operands its opcode declares, so
every `operands[0]` access in the dispatch switch is within bounds. -/
def Instruction.wellFormed (instr : Instruction) : Prop :=
  operandCount instr.opcode ≤ instr.operands.length

instance (instr : Instruction) : Decidable instr.wellFormed := by
  unfold Instruction.wellFormed; infer_instance

/-- The body of the `switch` inside `ExecutionEngine::execute`, before the
catch handler: returns the state as mutated by the instruction so far,
paired with `some message` when the instruction threw. Mutations performed
before a throw (e.g. the pop of the divisor before the zero check of DIV)
are kept, exactly as in the C++ code.  JMP/JZ/JNZ/CALL/RET are commented
out in the source, so they fall through to the `default` case. -/
def dispatch (st : EngineState) (instr : Instruction) :
    EngineState × Option String :=
  match instr.opcode with
  | OpCode.PUSH =>
    match Stack.push st.stack (instr.operands.getD 0 0) with
    | Except.error e => (st, some e)
    | Except.ok s => ({ st with stack := s }, none)
  | OpCode.POP =>
    match Stack.pop st.stack with
    | Except.error e => (st, some e)
    | Except.ok (_, s) => ({ st with stack := s }, none)
  | OpCode.ADD =>
    match Stack.pop st.stack with
    | Except.error e => (st, some e)
    | Except.ok (b, s1) =>
      match Stack.pop s1 with
      | Except.error e => ({ st with stack := s1 }, some e)
      | Except.ok (a, s2) =>
        match Stack.push s2 (a + b) with
        | Except.error e => ({ st with stack := s2 }, some e)
        | Except.ok s3 => ({ st with stack := s3 }, none)
  | OpCode.SUB =>
    match Stack.pop st.stack with
    | Except.error e => (st, some e)
    | Except.ok (b, s1) =>
      match Stack.pop s1 with
      | Except.error e => ({ st with stack := s1 }, some e)
      | Except.ok (a, s2) =>
        match Stack.push s2 (a - b) with
        | Except.error e => ({ st with stack := s2 }, some e)
        | Except.ok s3 => ({ st with stack := s3 }, none)
  | OpCode.MUL =>
    match Stack.pop st.stack with
    | Except.error e => (st, some e)
    | Except.ok (b, s1) =>
      match Stack.pop s1 with
      | Except.error e => ({ st with stack := s1 }, some e)
      | Except.ok (a, s2) =>
        match Stack.push s2 (a * b) with
        | Except.error e => ({ st with stack := s2 }, some e)
        | Except.ok s3 => ({ st with stack := s3 }, none)
  | OpCode.DIV =>
    match Stack.pop st.stack with
    | Except.error e => (st, some e)
    | Except.ok (b, s1) =>
      if b = 0 then ({ st with stack := s1 }, some "Division by zero")
      else
        match Stack.pop s1 with
        | Except.error e => ({ st with stack := s1 }, some e)
        | Except.ok (a, s2) =>
          match Stack.push s2 (Int.tdiv a b) with
          | Except.error e => ({ st with stack := s2 }, some e)
          | Except.ok s3 => ({ st with stack := s3 }, none)
  | OpCode.MOD =>
    match Stack.pop st.stack with
    | Except.error e => (st, some e)
    | Except.ok (b, s1) =>
      if b = 0 then ({ st with stack := s1 }, some "Modulo by zero")
      else
        match Stack.pop s1 with
        | Except.error e => ({ st with stack := s1 }, some e)
        | Except.ok (a, s2) =>
          match Stack.push s2 (Int.tmod a b) with
          | Except.error e => ({ st with stack := s2 }, some e)
          | Except.ok s3 => ({ st with stack := s3 }, none)
  | OpCode.LOAD =>
    match Memory.load st.memory (instr.operands.getD 0 0) with
    | Except.error e => (st, some e)
    | Except.ok v =>
      match Stack.push st.stack v with
      | Except.error e => (st, some e)
      | Except.ok s => ({ st with stack := s }, none)
  | OpCode.STORE =>
    match Stack.pop st.stack with
    | Except.error e => (st, some e)
    | Except.ok (v, s1) =>
      match Memory.store st.memory (instr.operands.getD 0 0) v with
      | Except.error e => ({ st with stack := s1 }, some e)
      | Except.ok m => ({ st with stack := s1, memory := m }, none)
  | OpCode.JMP => (st, some "Unknown instruction")
  | OpCode.JZ => (st, some "Unknown instruction")
  | OpCode.JNZ => (st, some "Unknown instruction")
  | OpCode.CALL => (st, some "Unknown instruction")
  | OpCode.RET => (st, some "Unknown instruction")
  | OpCode.DUP =>
    match Stack.dup st.stack with
    | Except.error e => (st, some e)
    | Except.ok s => ({ st with stack := s }, none)
  | OpCode.SWAP =>
    match Stack.swap st.stack with
    | Except.error e => (st, some e)
    | Except.ok s => ({ st with stack := s }, none)
  | OpCode.CMP =>
    match Stack.pop st.stack with
    | Except.error e => (st, some e)
    | Except.ok (b, s1) =>
      match Stack.pop s1 with
      | Except.error e => ({ st with stack := s1 }, some e)
      | Except.ok (a, s2) =>
        match Stack.push s2 (if a < b then -1 else if b < a then 1 else 0) with
        | Except.error e => ({ st with stack := s2 }, some e)
        | Except.ok s3 => ({ st with stack := s3 }, none)
  | OpCode.PRINT =>
    match Stack.pop st.stack with
    | Except.error e => (st, some e)
    | Except.ok (v, s1) =>
      ({ st with stack := s1, output := st.output ++ [v] }, none)
  | OpCode.HALT => ({ st with running := false }, none)

/-- `ExecutionEngine::execute`: run the dispatch switch; on a throw, the
catch handler logs `Runtime error at PC=pc: message` to `cerr` (recorded
as the pair `(pc, message)`) and clears the running flag. -/
def execute (st : EngineState) (instr : Instruction) : EngineState :=
  match dispatch st instr with
  | (st1, none) => st1
  | (st1, some e) =>
    { st1 with running := false
               diagnostics := st1.diagnostics ++ [(st1.pc, e)] }

/-- `ExecutionEngine::load_program`: replace the program, reset `pc` to 0,
set `running` to true, and pop the call stack empty; the operand stack and
the memory are not touched. -/
def load_program (st : EngineState) (bytecode : List Instruction) :
    EngineState :=
  { st with program := bytecode
            pc := 0
            running := true
            call_stack := [] }

/-- One iteration of the `run()` loop body: `execute(program[pc]); pc++`.
The loop guard guarantees `pc < program.size()`, so the `getD` default is
never consulted. -/
def step (st : EngineState) : EngineState :=
  let st1 := execute st (st.program.getD st.pc ⟨OpCode.HALT, []⟩)
  { st1 with pc := st1.pc + 1 }

/-- The `while (running && pc < program.size())` loop of
`ExecutionEngine::run`, with explicit fuel.  Each iteration increments
`pc` by exactly one (`execute` never writes `pc`), so fuel
`program.length - pc` is exactly the number of iterations the C++ loop can
still perform; `runLoop_stops` proves the loop condition is false at the
returned state. -/
def runLoop : Nat → EngineState → EngineState
  | 0, st => st
  | Nat.succ fuel, st =>
    if st.running = true ∧ st.pc < st.program.length then runLoop fuel (step st)
    else st

/-- `ExecutionEngine::run`. -/
def run (st : EngineState) : EngineState :=
  runLoop (st.program.length - st.pc) st

/-- The number of loop iterations (= instruction dispatches) `run` performs
from a given state. -/
def loopSteps : Nat → EngineState → Nat
  | 0, _ => 0
  | Nat.succ fuel, st =>
    if st.running = true ∧ st.pc < st.program.length then
      loopSteps fuel (step st) + 1
    else 0

/-- Dispatches performed by a full `run()` call from a given state. -/
def dispatchCount (st : EngineState) : Nat :=
  loopSteps (st.program.length - st.pc) st

/-- The C++ loop condition of `run()` is false: the engine halted via a
cleared running flag or ran off the end of the program. -/
def terminalState (st : EngineState) : Prop :=
  st.running = false ∨ st.program.length ≤ st.pc

/-- A memory that has never had a store to address `a`: it arose from the
empty map of a fresh engine through any sequence of successful
`Memory.store` calls, none of them at `a` (stores to other addresses are
allowed). -/
inductive NeverStored (a : Int) : (Int → Option Int) → Prop where
  | fresh : NeverStored a (fun _ => none)
  | store (m m2 : Int → Option Int) (b v : Int) :
      NeverStored a m → b ≠ a → Memory.store m b v = Except.ok m2 →
      NeverStored a m2

/-- The program `PUSH 7; PUSH 0; DIV`. -/
def progDiv0 : List Instruction :=
  [⟨OpCode.PUSH, [7]⟩, ⟨OpCode.PUSH, [0]⟩, ⟨OpCode.DIV, []⟩]

/-- The program `PUSH 7; PUSH 0; MOD`. -/
def progMod0 : List Instruction :=
  [⟨OpCode.PUSH, [7]⟩, ⟨OpCode.PUSH, [0]⟩, ⟨OpCode.MOD, []⟩]

/-- The end-to-end example program of `main`:
`PUSH 5; STORE 0; PUSH 10; STORE 1; LOAD 0; LOAD 1; ADD; PRINT; HALT`. -/
def progE2E : List Instruction :=
  [⟨OpCode.PUSH, [5]⟩, ⟨OpCode.STORE, [0]⟩, ⟨OpCode.PUSH, [10]⟩,
   ⟨OpCode.STORE, [1]⟩, ⟨OpCode.LOAD, [0]⟩, ⟨OpCode.LOAD, [1]⟩,
   ⟨OpCode.ADD, []⟩, ⟨OpCode.PRINT, []⟩, ⟨OpCode.HALT, []⟩]

/-- A program of 1025 consecutive `PUSH 1` instructions. -/
def prog1025 : List Instruction := List.replicate 1025 ⟨OpCode.PUSH, [1]⟩

/-- The engine state reached after the first `i` instructions of
`prog1025`: `i` copies of 1 on the operand stack, `pc = i`, still
running. -/
def mkPushState (i : Nat) : EngineState :=
  { program := prog1025
    stack := List.replicate i 1
    memory := fun _ => none
    call_stack := []
    pc := i
    running := true
    output := []
    diagnostics := [] }

/-- The final state of running `prog1025`: the 1025th push (at `pc = 1024`)
overflowed, the 1024 already-pushed values remain, the engine halted. -/
def overflowState : EngineState :=
  { mkPushState 1024 with
      running := false
      pc := 1025
      diagnostics := [(1024, "Stack Overflow")] }

/-! ### Helper lemmas about the dispatch switch and the run loop -/

/-- The dispatch switch never writes the program counter, the program, or
the diagnostics channel (only the catch handler of `execute` logs). -/
theorem dispatch_preserves (st : EngineState) (instr : Instruction) :
    ((dispatch st instr).1).pc = st.pc ∧
    ((dispatch st instr).1).program = st.program ∧
    ((dispatch st instr).1).diagnostics = st.diagnostics := by
  obtain ⟨op, ops⟩ := instr
  cases op <;> simp only [dispatch] <;> (repeat' split) <;> simp

/-- No implemented opcode modifies the program counter. -/
theorem execute_pc (st : EngineState) (instr : Instruction) :
    (execute st instr).pc = st.pc := by
  unfold execute
  rcases h : dispatch st instr with ⟨st1, e⟩
  have hp := dispatch_preserves st instr
  rw [h] at hp
  cases e
  · exact hp.1
  · exact hp.1

/-- `execute` never replaces the loaded program. -/
theorem execute_program (st : EngineState) (instr : Instruction) :
    (execute st instr).program = st.program := by
  unfold execute
  rcases h : dispatch st instr with ⟨st1, e⟩
  have hp := dispatch_preserves st instr
  rw [h] at hp
  cases e
  · exact hp.2.1
  · exact hp.2.1

/-- When the dispatch switch throws, `execute`'s catch handler clears the
running flag and appends the `(pc, message)` diagnostic. -/
theorem execute_of_dispatch_error (st : EngineState) (instr : Instruction)
    (st1 : EngineState) (e : String)
    (h : dispatch st instr = (st1, some e)) :
    execute st instr =
      { st1 with running := false
                 diagnostics := st1.diagnostics ++ [(st1.pc, e)] } := by
  unfold execute
  rw [h]

/-- One loop iteration advances the program counter by exactly one. -/
theorem step_pc (st : EngineState) : (step st).pc = st.pc + 1 := by
  simp [step, execute_pc]

/-- One loop iteration leaves the loaded program unchanged. -/
theorem step_program (st : EngineState) : (step st).program = st.program := by
  simp [step, execute_program]

/-- A halted engine (`running = false`) is left untouched by the loop. -/
theorem runLoop_not_running (fuel : Nat) (st : EngineState)
    (h : st.running = false) : runLoop fuel st = st := by
  cases fuel <;> simp [runLoop, h]

/-- The loop never replaces the loaded program. -/
theorem runLoop_program (fuel : Nat) :
    ∀ st : EngineState, (runLoop fuel st).program = st.program := by
  induction fuel with
  | zero => intro st; rfl
  | succ n ih =>
    intro st
    simp only [runLoop]
    split
    · rw [ih, step_program]
    · rfl

/-- With fuel at least `program.length - pc`, the loop reaches a state in
which the C++ loop condition `running && pc < program.size()` is false:
every iteration increments `pc` by one, so the fuel suffices. -/
theorem runLoop_stops (fuel : Nat) :
    ∀ st : EngineState, st.program.length ≤ st.pc + fuel →
      terminalState (runLoop fuel st) := by
  induction fuel with
  | zero =>
    intro st h
    exact Or.inr (by simpa using h)
  | succ n ih =>
    intro st h
    simp only [runLoop]
    split
    case isTrue hc =>
      exact ih (step st) (by rw [step_program, step_pc]; omega)
    case isFalse hc =>
      rcases not_and_or.mp hc with h1 | h2
      · exact Or.inl (by simpa using h1)
      · exact Or.inr (by omega)

/-- The program counter never moves past the end of the program: it starts
at most at `program.length` and the loop only advances it while it is
strictly below. -/
theorem runLoop_pc_le (fuel : Nat) :
    ∀ st : EngineState, st.pc ≤ st.program.length →
      (runLoop fuel st).pc ≤ (runLoop fuel st).program.length := by
  induction fuel with
  | zero => intro st h; exact h
  | succ n ih =>
    intro st h
    simp only [runLoop]
    split
    case isTrue hc =>
      exact ih (step st) (by rw [step_program, step_pc]; omega)
    case isFalse hc => exact h

/-- The loop performs at most `fuel` dispatches. -/
theorem loopSteps_le (fuel : Nat) :
    ∀ st : EngineState, loopSteps fuel st ≤ fuel := by
  induction fuel with
  | zero => intro st; exact Nat.le_refl 0
  | succ n ih =>
    intro st
    simp only [loopSteps]
    split
    · exact Nat.succ_le_succ (ih (step st))
    · exact Nat.zero_le _

/-- Store non-interference: a memory that has never had a store to `a`
holds no entry at `a` — a successful store at `b ≠ a` leaves the cell at
`a` absent. -/
theorem never_stored_none (a : Int) (m : Int → Option Int)
    (h : NeverStored a m) : m a = none := by
  induction h with
  | fresh => rfl
  | store m m2 b v hns hne hst ih =>
    unfold Memory.store at hst
    split at hst
    · simp at hst
    · rw [← Except.ok.inj hst]
      show (if a = b then some v else m a) = none
      rw [if_neg (fun hh => hne hh.symm)]
      exact ih

/-! ### Claim theorems -/

/-- C1, counterexample: after `PUSH 7; PUSH 0; DIV` (and likewise MOD) the
operand stack still contains the dividend 7, refuting the claim that "the
operand stack no longer contains 7 after the failed instruction": the DIV
case pops the divisor and throws on the zero check before the dividend is
popped. -/
theorem div_by_zero_dividend_still_on_stack :
    (7 : Int) ∈ (run (load_program initState progDiv0)).stack ∧
    (7 : Int) ∈ (run (load_program initState progMod0)).stack := by
  decide

/-- C1, amended: `PUSH 7; PUSH 0; DIV` raises "Division by zero" and
`PUSH 7; PUSH 0; MOD` raises "Modulo by zero"; in both cases the divisor 0
has already been popped and is lost (not restored), while the dividend 7
has not yet been popped when the error is raised, so the operand stack
afterwards is exactly `[7]`. -/
theorem div_mod_by_zero_divisor_lost :
    (run (load_program initState progDiv0)).diagnostics
        = [(2, "Division by zero")] ∧
    (run (load_program initState progDiv0)).running = false ∧
    (run (load_program initState progDiv0)).stack = [7] ∧
    (run (load_program initState progMod0)).diagnostics
        = [(2, "Modulo by zero")] ∧
    (run (load_program initState progMod0)).running = false ∧
    (run (load_program initState progMod0)).stack = [7] := by
  decide

/-- C2: after a full `run()` call on a freshly loaded program, the program
counter is either within `[0, len(program))` with `running = false`
(explicit HALT or error) or equals `len(program)` (ran off the end). -/
theorem run_final_pc (st : EngineState) (p : List Instruction) :
    ((run (load_program st p)).pc < (run (load_program st p)).program.length ∧
      (run (load_program st p)).running = false) ∨
    (run (load_program st p)).pc = (run (load_program st p)).program.length := by
  have hpc : (load_program st p).pc = 0 := rfl
  have hterm : terminalState (run (load_program st p)) := by
    unfold run
    exact runLoop_stops _ (load_program st p) (by omega)
  have hle : (run (load_program st p)).pc ≤
      (run (load_program st p)).program.length := by
    unfold run
    exact runLoop_pc_le _ (load_program st p) (by omega)
  rcases hterm with hr | hp
  · rcases lt_or_eq_of_le hle with hlt | heq
    · exact Or.inl ⟨hlt, hr⟩
    · exact Or.inr heq
  · exact Or.inr (by omega)

/-- C3: for an instruction carrying at least its declared operand count,
any error thrown by the dispatch switch is caught at the dispatch boundary
of `execute`: the running flag is cleared and the `(pc, message)` pair is
logged to the diagnostics channel.  `run` is a total Lean function of the
engine state (the C++ `run()` never propagates the exception), so it
always returns and the final state stays inspectable. -/
theorem execute_error_halts (st : EngineState) (instr : Instruction)
    (st1 : EngineState) (e : String)
    (_hwf : instr.wellFormed)
    (herr : dispatch st instr = (st1, some e)) :
    (execute st instr).running = false ∧
    (execute st instr).diagnostics = st.diagnostics ++ [(st.pc, e)] := by
  have hp := dispatch_preserves st instr
  rw [herr] at hp
  rw [execute_of_dispatch_error st instr st1 e herr]
  exact ⟨rfl, by rw [hp.2.2, hp.1]⟩

/-- C3, witness: `POP` on an empty stack. -/
theorem execute_error_halts_witness :
    Instruction.wellFormed ⟨OpCode.POP, []⟩ ∧
    ((execute initState ⟨OpCode.POP, []⟩).running = false ∧
      (execute initState ⟨OpCode.POP, []⟩).diagnostics =
        initState.diagnostics ++ [(initState.pc, "Stack Underflow")]) :=
  ⟨by decide,
    execute_error_halts initState ⟨OpCode.POP, []⟩ initState "Stack Underflow"
      (by decide) rfl⟩

/-- C4: `run()` terminates.  No opcode of the dispatch switch modifies the
program counter, the loop increments it by exactly one after each
dispatch, and a full run from a freshly loaded program performs at most
`len(program)` dispatches before the loop condition becomes false. -/
theorem run_terminates (st : EngineState) (p : List Instruction) :
    terminalState (run (load_program st p)) ∧
    dispatchCount (load_program st p) ≤ p.length ∧
    ∀ (s : EngineState) (instr : Instruction), (execute s instr).pc = s.pc := by
  refine ⟨?_, ?_, fun s instr => execute_pc s instr⟩
  · have hpc : (load_program st p).pc = 0 := rfl
    unfold run
    exact runLoop_stops _ (load_program st p) (by omega)
  · have hlen : (load_program st p).program.length = p.length := rfl
    have h := loopSteps_le ((load_program st p).program.length -
      (load_program st p).pc) (load_program st p)
    unfold dispatchCount
    omega

/-- C5: `load_program` resets the program counter to 0, sets the running
flag, and empties the call stack, while leaving the operand stack and
every memory cell exactly as they were: a value stored under an earlier
program is still loadable after loading a second one. -/
theorem load_program_resets (st : EngineState) (p : List Instruction) :
    (load_program st p).pc = 0 ∧
    (load_program st p).running = true ∧
    (load_program st p).call_stack = [] ∧
    (load_program st p).stack = st.stack ∧
    (load_program st p).memory = st.memory ∧
    ∀ a : Int, Memory.load (load_program st p).memory a
        = Memory.load st.memory a :=
  ⟨rfl, rfl, rfl, rfl, rfl, fun _ => rfl⟩

/-- C6: dispatching any of the commented-out control-transfer opcodes
(JMP, JZ, JNZ, CALL, RET — the only opcodes outside the implemented set)
falls through to the `default` case, raising "Unknown instruction"; the
engine halts with `running = false` and the diagnostic records the current
program counter, i.e. the index of the offending instruction. -/
theorem unknown_instruction_halts (st : EngineState) (op : OpCode)
    (ops : List Int)
    (h : op = OpCode.JMP ∨ op = OpCode.JZ ∨ op = OpCode.JNZ ∨
      op = OpCode.CALL ∨ op = OpCode.RET) :
    execute st ⟨op, ops⟩ =
      { st with running := false
                diagnostics := st.diagnostics ++
                  [(st.pc, "Unknown instruction")] } := by
  rcases h with h | h | h | h | h <;> subst h <;> rfl

/-- C6, witness: a `JMP` instruction on a fresh engine. -/
theorem unknown_instruction_halts_witness :
    (OpCode.JMP = OpCode.JMP ∨ OpCode.JMP = OpCode.JZ ∨
      OpCode.JMP = OpCode.JNZ ∨ OpCode.JMP = OpCode.CALL ∨
      OpCode.JMP = OpCode.RET) ∧
    execute initState ⟨OpCode.JMP, [10]⟩ =
      { initState with running := false
                       diagnostics := initState.diagnostics ++
                         [(initState.pc, "Unknown instruction")] } :=
  ⟨Or.inl rfl, unknown_instruction_halts initState OpCode.JMP [10] (Or.inl rfl)⟩

/-- Reading any in-range index of a replicated list yields the replicated
element. -/
theorem replicate_getD {α : Type} (n : Nat) :
    ∀ (i : Nat) (a d : α), i < n → (List.replicate n a).getD i d = a := by
  induction n with
  | zero => intro i a d h; omega
  | succ n ih =>
    intro i a d h
    cases i with
    | zero => rfl
    | succ i =>
      rw [List.replicate_succ]
      exact ih i a d (by omega)

/-- While the stack is below capacity, each iteration of the `prog1025`
run pushes one more 1 and advances `pc`. -/
theorem push_step (i : Nat) (h : i < 1024) :
    step (mkPushState i) = mkPushState (i + 1) := by
  have hget : (mkPushState i).program.getD (mkPushState i).pc ⟨OpCode.HALT, []⟩
      = (⟨OpCode.PUSH, [1]⟩ : Instruction) := replicate_getD 1025 i _ _ (by omega)
  have hstack : ¬ MAX_SIZE ≤ (mkPushState i).stack.length := by
    show ¬ MAX_SIZE ≤ (List.replicate i (1 : Int)).length
    rw [List.length_replicate]
    unfold MAX_SIZE
    omega
  have hex : execute (mkPushState i) ⟨OpCode.PUSH, [1]⟩
      = { mkPushState i with stack := 1 :: (mkPushState i).stack } := by
    unfold execute dispatch Stack.push
    simp [hstack]
  simp only [step]
  rw [hget, hex]
  simp [mkPushState, List.replicate_succ]

/-- The 1025th push (at `pc = 1024`, stack already at capacity 1024)
throws "Stack Overflow"; the handler halts the engine and logs the
diagnostic, and the loop still increments `pc` to 1025. -/
theorem push_step_overflow : step (mkPushState 1024) = overflowState := by
  rfl

/-- Running the loop from any prefix state of the `prog1025` run ends in
the overflow state. -/
theorem push_runLoop (j : Nat) :
    ∀ i : Nat, i ≤ 1024 → i + j = 1025 →
      runLoop j (mkPushState i) = overflowState := by
  induction j with
  | zero => intro i h1 h2; omega
  | succ n ih =>
    intro i h1 h2
    have hcond : (mkPushState i).running = true ∧
        (mkPushState i).pc < (mkPushState i).program.length := by
      refine ⟨rfl, ?_⟩
      show i < prog1025.length
      have : prog1025.length = 1025 := by
        simp [prog1025]
      omega
    rw [runLoop, if_pos hcond]
    by_cases hi : i < 1024
    · rw [push_step i hi]
      exact ih (i + 1) (by omega) (by omega)
    · have hi2 : i = 1024 := by omega
      subst hi2
      have hn : n = 0 := by omega
      subst hn
      rw [push_step_overflow]
      rfl

/-- C7: executing 1025 consecutive `PUSH` instructions raises
StackOverflow on the 1025th push — `Stack::push` fails exactly when the
stack size has reached the capacity 1024 and succeeds below it — and
afterwards the operand stack holds exactly 1024 values with the running
flag cleared. -/
theorem push_overflow_on_1025th :
    (run (load_program initState prog1025)).stack.length = 1024 ∧
    (run (load_program initState prog1025)).running = false ∧
    (run (load_program initState prog1025)).diagnostics
        = [(1024, "Stack Overflow")] ∧
    (∀ (s : List Int) (v : Int), s.length = 1024 →
      Stack.push s v = Except.error "Stack Overflow") ∧
    (∀ (s : List Int) (v : Int), s.length < 1024 →
      Stack.push s v = Except.ok (v :: s)) := by
  have hload : load_program initState prog1025 = mkPushState 0 := rfl
  have hfuel : (load_program initState prog1025).program.length -
      (load_program initState prog1025).pc = 1025 := by
    show prog1025.length - 0 = 1025
    simp [prog1025]
  have hrun : run (load_program initState prog1025) = overflowState := by
    unfold run
    rw [hfuel, hload]
    exact push_runLoop 1025 0 (by omega) (by omega)
  rw [hrun]
  refine ⟨?_, rfl, rfl, ?_, ?_⟩
  · show (List.replicate 1024 (1 : Int)).length = 1024
    simp
  · intro s v h
    unfold Stack.push MAX_SIZE
    rw [if_pos (by omega)]
  · intro s v h
    unfold Stack.push MAX_SIZE
    rw [if_neg (by omega)]

/-- C7, witness: pushing onto a full stack of 1024 zeros fails with
"Stack Overflow"; pushing onto the empty stack appends. -/
theorem push_overflow_on_1025th_witness :
    (List.replicate 1024 (0 : Int)).length = 1024 ∧
    Stack.push (List.replicate 1024 (0 : Int)) 5
        = Except.error "Stack Overflow" ∧
    ([] : List Int).length < 1024 ∧
    Stack.push ([] : List Int) 5 = Except.ok [5] :=
  ⟨by simp,
    push_overflow_on_1025th.2.2.2.1 (List.replicate 1024 (0 : Int)) 5 (by simp),
    by simp,
    push_overflow_on_1025th.2.2.2.2 [] 5 (by simp)⟩

/-- C8: the end-to-end program
`PUSH 5; STORE 0; PUSH 10; STORE 1; LOAD 0; LOAD 1; ADD; PRINT; HALT` on a
fresh engine prints exactly one value, 15, and leaves the engine halted
with an empty operand stack. -/
theorem end_to_end_prints_15 :
    (run (load_program initState progE2E)).output = [15] ∧
    (run (load_program initState progE2E)).running = false ∧
    (run (load_program initState progE2E)).stack = [] := by
  decide

/-- C9: for every address `a` in `[0, 65535]`: a load of `a` from any
memory that has never had a store to `a` — regardless of earlier stores
to other addresses — returns 0 without error, and a load immediately
after a store of `v` at `a` returns `v`, for every prior memory
content. -/
theorem memory_default_and_roundtrip (a : Int) (h0 : 0 ≤ a)
    (h1 : a ≤ 65535) :
    (∀ m : Int → Option Int, NeverStored a m →
      Memory.load m a = Except.ok 0) ∧
    ∀ (m : Int → Option Int) (v : Int), ∃ m2,
      Memory.store m a v = Except.ok m2 ∧ Memory.load m2 a = Except.ok v := by
  have hcond : ¬ (a < 0 ∨ MAX_ADDRESS < a) := by
    unfold MAX_ADDRESS
    omega
  constructor
  · intro m hm
    unfold Memory.load
    rw [if_neg hcond, never_stored_none a m hm]
  · intro m v
    refine ⟨fun x => if x = a then some v else m x, ?_, ?_⟩
    · unfold Memory.store
      rw [if_neg hcond]
    · unfold Memory.load
      rw [if_neg hcond]
      simp

/-- C9, witness: address 42 on a memory holding an earlier store of 5 at
address 7 but never stored at 42 — the load of 42 still returns 0 — and
the store/load round trip of 9 at 42 over that same memory. -/
theorem memory_default_and_roundtrip_witness :
    (0 : Int) ≤ 42 ∧ (42 : Int) ≤ 65535 ∧
    NeverStored 42 (fun x => if x = 7 then some 5 else none) ∧
    Memory.load (fun x => if x = 7 then some 5 else none) 42 = Except.ok 0 ∧
    (∃ m2, Memory.store (fun x => if x = 7 then some 5 else none) 42 9
        = Except.ok m2 ∧ Memory.load m2 42 = Except.ok 9) := by
  have hns : NeverStored 42 (fun x => if x = 7 then some 5 else none) :=
    NeverStored.store (fun _ => none) _ 7 5 NeverStored.fresh (by decide) rfl
  exact ⟨by decide, by decide, hns,
    (memory_default_and_roundtrip 42 (by decide) (by decide)).1 _ hns,
    (memory_default_and_roundtrip 42 (by decide) (by decide)).2 _ 9⟩

/-- C10: when the instruction at index `pc` throws during dispatch, the
loop still increments the program counter after the failed dispatch: the
final program counter is `pc + 1`, one past the faulting instruction,
while the diagnostic records the faulting index `pc` itself, and the
engine is halted. -/
theorem error_halt_pc_one_past (st : EngineState) (instr : Instruction)
    (st1 : EngineState) (e : String)
    (hlt : st.pc < st.program.length) (hrun : st.running = true)
    (hget : st.program.getD st.pc ⟨OpCode.HALT, []⟩ = instr)
    (herr : dispatch st instr = (st1, some e)) :
    (run st).pc = st.pc + 1 ∧ (run st).running = false ∧
    (run st).diagnostics = st.diagnostics ++ [(st.pc, e)] := by
  have hp := dispatch_preserves st instr
  rw [herr] at hp
  have hex : execute st instr =
      { st1 with running := false
                 diagnostics := st1.diagnostics ++ [(st1.pc, e)] } :=
    execute_of_dispatch_error st instr st1 e herr
  have hfuel : st.program.length - st.pc =
      Nat.succ (st.program.length - st.pc - 1) := by omega
  have hstep : step st =
      { st1 with running := false
                 diagnostics := st1.diagnostics ++ [(st1.pc, e)]
                 pc := st1.pc + 1 } := by
    unfold step
    rw [hget, hex]
  unfold run
  rw [hfuel, runLoop, if_pos ⟨hrun, hlt⟩, hstep,
    runLoop_not_running _ _ rfl]
  exact ⟨by rw [hp.1], rfl, by rw [hp.2.2, hp.1]⟩

/-- C10, witness: a one-instruction program `POP` on an empty stack — the
error is logged at index 0 and the final program counter is 1. -/
theorem error_halt_pc_one_past_witness :
    (run (load_program initState [⟨OpCode.POP, []⟩])).pc =
      (load_program initState [⟨OpCode.POP, []⟩]).pc + 1 ∧
    (run (load_program initState [⟨OpCode.POP, []⟩])).running = false ∧
    (run (load_program initState [⟨OpCode.POP, []⟩])).diagnostics =
      (load_program initState [⟨OpCode.POP, []⟩]).diagnostics ++
        [((load_program initState [⟨OpCode.POP, []⟩]).pc, "Stack Underflow")] :=
  error_halt_pc_one_past (load_program initState [⟨OpCode.POP, []⟩])
    ⟨OpCode.POP, []⟩ (load_program initState [⟨OpCode.POP, []⟩])
    "Stack Underflow" (by decide) rfl rfl rfl

end SVM
